import Mathlib

/-!
Verification of the quiz-generator pipeline (quiz_generator.py).

The development shallowly embeds the program's data flow:
  - the raw-response normalizer on line 37 of the source,
    raw.replace of the json code fence, then of the bare fence, then strip,
    is modelled character-exactly on lists of characters;
  - os.path.splitext, str.upper, str.lower, str.endswith and os.path.join
    are modelled for the ASCII inputs the program handles;
  - json.loads and the external LLM client are external effects: they are
    passed to the embedded job as explicit outcome functions;
  - file writes are modelled as an outcome plus the (path, value) pair the
    job would persist, so persistence claims are statable.
-/

namespace QuizGen

/-- Backtick character, written via its code point. -/
def btick : Char := Char.ofNat 96

/-- The three-character code fence marker. -/
def fence3 : List Char := [btick, btick, btick]

/-- The language-tagged code fence opener for json. -/
def fenceJson : List Char := [btick, btick, btick, 'j', 's', 'o', 'n']

/-- Python str.replace of the json fence by the empty string: leftmost,
non-overlapping, no rescan of already-produced output. -/
def repJson : List Char → List Char
  | [] => []
  | c :: rest =>
      if fenceJson.isPrefixOf (c :: rest) then repJson (rest.drop 6)
      else c :: repJson rest
termination_by l => l.length
decreasing_by
  · simp [List.length_drop]; omega
  · simp

/-- Python str.replace of the bare fence by the empty string. -/
def repAll3 : List Char → List Char
  | [] => []
  | c :: rest =>
      if fence3.isPrefixOf (c :: rest) then repAll3 (rest.drop 2)
      else c :: repAll3 rest
termination_by l => l.length
decreasing_by
  · simp [List.length_drop]; omega
  · simp

/-- Python str.isspace characters removed by str.strip (ASCII fragment). -/
def isPySpace (c : Char) : Bool :=
  c == ' ' || c == '\t' || c == '\n' || c == '\r' || c == '\x0B' || c == '\x0C'

/-- Leading-whitespace removal, the left half of str.strip. -/
def lstripL (l : List Char) : List Char := l.dropWhile isPySpace

/-- Trailing-whitespace removal, the right half of str.strip. -/
def rstripL (l : List Char) : List Char := (l.reverse.dropWhile isPySpace).reverse

/-- Python str.strip with no arguments. -/
def pyStripL (l : List Char) : List Char := rstripL (lstripL l)

/-- Line 37 of the source: remove the json fence opener, remove bare fences,
then strip surrounding whitespace. -/
def normalizeRaw (l : List Char) : List Char := pyStripL (repAll3 (repJson l))

/-- String-level wrapper of the normalizer. -/
def pyNormalize (s : String) : String := String.mk (normalizeRaw s.data)

/-- Does the character list contain the bare fence as a substring. -/
def has3 : List Char → Bool
  | [] => false
  | c :: rest => fence3.isPrefixOf (c :: rest) || has3 rest

/-- Inner content wrapped in a json-tagged code fence. -/
def wrapJsonFence (inner : String) : String :=
  String.mk (fenceJson ++ '\n' :: (inner.data ++ '\n' :: fence3))

/-- Inner content wrapped in a bare code fence. -/
def wrapBareFence (inner : String) : String :=
  String.mk (fence3 ++ '\n' :: (inner.data ++ '\n' :: fence3))

/-- Index of the last dot in a character list, if any. -/
def lastDot : List Char → Option Nat
  | [] => none
  | c :: rest =>
      match lastDot rest with
      | some i => some (i + 1)
      | none => if c = '.' then some 0 else none

/-- Python os.path.splitext for names without a path separator: split at the
last dot unless every character before it is a dot. -/
def splitExtL (s : List Char) : List Char × List Char :=
  match lastDot s with
  | none => (s, [])
  | some i =>
      if (s.take i).all (fun c => c == '.') then (s, [])
      else (s.take i, s.drop i)

/-- String-level os.path.splitext. -/
def pySplitExt (s : String) : String × String :=
  (String.mk (splitExtL s.data).1, String.mk (splitExtL s.data).2)

/-- ASCII fragment of Python str.upper on one character. -/
def upperChar (c : Char) : Char :=
  if 97 ≤ c.toNat ∧ c.toNat ≤ 122 then Char.ofNat (c.toNat - 32) else c

/-- ASCII fragment of Python str.lower on one character. -/
def lowerChar (c : Char) : Char :=
  if 65 ≤ c.toNat ∧ c.toNat ≤ 90 then Char.ofNat (c.toNat + 32) else c

/-- ASCII fragment of Python str.upper. -/
def pyUpper (s : String) : String := String.mk (s.data.map upperChar)

/-- ASCII fragment of Python str.lower. -/
def pyLower (s : String) : String := String.mk (s.data.map lowerChar)

/-- Python endswith for the transcript extension. -/
def endsTxt (s : String) : Bool := ".txt".data.isSuffixOf s.data

/-- Python os.path.join on POSIX for two components. -/
def pyJoin (a b : String) : String :=
  if b.data.head? = some '/' then b
  else if a = "" ∨ a.data.getLast? = some '/' then a ++ b
  else a ++ "/" ++ b

/-- Identifier derivation of lines 28 and 29 of the source: the extension is
stripped with os.path.splitext and the remainder is uppercased. -/
def transcriptId (filename : String) : String :=
  pyUpper (pySplitExt filename).1

/-- Parsed JSON values; numbers are modelled as integers, which covers every
constraint the schema places on a number. -/
inductive Json
  | null
  | bool (b : Bool)
  | num (n : Int)
  | str (s : String)
  | arr (items : List Json)
  | obj (fields : List (String × Json))

/-- The per-job outcome tuple of process_transcript, under the names the
specification gives its JobResult record. -/
structure JobResult where
  source_filename : String
  output_path : Option String
  error : Option String
deriving DecidableEq

/-- One immediate entry of the input directory, as os.listdir reports it:
a regular file with its content, or a subdirectory. -/
inductive DirEntry
  | file (name content : String)
  | dir (name : String)

/-- Lines 14 to 21 of the source: iterate the directory listing, keep entries
whose lowercased name ends in a txt extension, and open each kept entry.
Opening a kept subdirectory raises IsADirectoryError, which propagates. -/
def loadTranscripts (folder : String) : List DirEntry → Except String (List (String × String))
  | [] => Except.ok []
  | DirEntry.file n c :: rest =>
      if endsTxt (pyLower n) then
        match loadTranscripts folder rest with
        | Except.error e => Except.error e
        | Except.ok ts => Except.ok ((n, c) :: ts)
      else loadTranscripts folder rest
  | DirEntry.dir n :: rest =>
      if endsTxt (pyLower n) then
        Except.error ("IsADirectoryError: " ++ pyJoin folder n)
      else loadTranscripts folder rest

/-- Lines 23 to 49 of the source. The external effects are explicit: client
gives the chain invocation outcome for this filename and text, parse gives the
json.loads outcome on the normalized text, write gives the outcome of the
makedirs, open and dump phase at the computed path. The second component is
the (path, value) pair persisted on success, none otherwise. -/
def processTranscript (filename text : String)
    (client : String → String → Except String String)
    (parse : String → Except String Json)
    (write : String → Json → Except String Unit)
    (output_dir : String) : JobResult × Option (String × Json) :=
  let transcript_id := transcriptId filename
  match client filename text with
  | Except.error e => (⟨filename, none, some e⟩, none)
  | Except.ok raw =>
      match parse (pyNormalize raw) with
      | Except.error e => (⟨filename, none, some ("JSON parse error: " ++ e)⟩, none)
      | Except.ok obj =>
          let out_path := pyJoin output_dir (transcript_id ++ ".json")
          match write out_path obj with
          | Except.error e => (⟨filename, none, some e⟩, none)
          | Except.ok _ => (⟨filename, some out_path, none⟩, some (out_path, obj))

/-- Lines 129 to 140 of the source: one job per loaded transcript. The thread
pool surfaces results in completion order; the embedding lists them in
submission order, and claims about them are stated order-insensitively. -/
def runJobs (ts : List (String × String))
    (client : String → String → Except String String)
    (parse : String → Except String Json)
    (write : String → Json → Except String Unit)
    (output_dir : String) : List (JobResult × Option (String × Json)) :=
  ts.map (fun p => processTranscript p.1 p.2 client parse write output_dir)

/-- Outcome of one whole run of main. -/
inductive RunOutcome
  | fatal (msg : String)
  | notice (msg : String)
  | completed (results : List (JobResult × Option (String × Json)))

/-- Lines 74 to 140 of the source: load the transcripts, stop with a notice
when none are found, otherwise run every job. A loader failure propagates and
kills the run before any job starts. -/
def mainRun (input_dir : String) (entries : List DirEntry)
    (client : String → String → Except String String)
    (parse : String → Except String Json)
    (write : String → Json → Except String Unit)
    (output_dir : String) : RunOutcome :=
  match loadTranscripts input_dir entries with
  | Except.error e => RunOutcome.fatal e
  | Except.ok ts =>
      if ts = [] then
        RunOutcome.notice ("No transcript files found in \x27" ++ input_dir ++ "\x27.")
      else RunOutcome.completed (runJobs ts client parse write output_dir)

/-- Field lookup in a parsed JSON object. -/
def jLookup (fields : List (String × Json)) (k : String) : Option Json :=
  match fields with
  | [] => none
  | (k2, v) :: rest => if k2 = k then some v else jLookup rest k

/-- Modelled from the spec: is the field present and a string. Part of the
structural schema of section 4.4, which the source never implements. -/
def isStrJ : Option Json → Bool
  | some (Json.str _) => true
  | _ => false

/-- Modelled from the spec: the options field is a sequence of exactly four
strings. -/
def optionsOk : Option Json → Bool
  | some (Json.arr xs) => xs.length == 4 && xs.all (fun j => isStrJ (some j))
  | _ => false

/-- Modelled from the spec: correct_answer_index is an integer in range. -/
def idxOk : Option Json → Bool
  | some (Json.num n) => decide (0 ≤ n ∧ n ≤ 3)
  | _ => false

/-- Modelled from the spec: the five required fields of one quiz item. -/
def itemOk : Json → Bool
  | Json.obj fs =>
      isStrJ (jLookup fs "question_id") && isStrJ (jLookup fs "question") &&
      optionsOk (jLookup fs "options") && idxOk (jLookup fs "correct_answer_index") &&
      isStrJ (jLookup fs "explanation")
  | _ => false

/-- Modelled from the spec: quizzes is a sequence of at least three valid
items. -/
def quizzesOk : Option Json → Bool
  | some (Json.arr xs) => decide (3 ≤ xs.length) && xs.all itemOk
  | _ => false

/-- Modelled from the spec: the structural schema of a QuizDocument. The spec
requires the document fields transcript_id, title and quizzes, at least three
quiz items, exactly four options per item and an in-range answer index. The
source never checks any of this. -/
def schemaOk : Json → Bool
  | Json.obj fs =>
      isStrJ (jLookup fs "transcript_id") && isStrJ (jLookup fs "title") &&
      quizzesOk (jLookup fs "quizzes")
  | _ => false

/-- The directory entries the loader keeps, in listing order. -/
def txtPairs (entries : List DirEntry) : List (String × String) :=
  entries.filterMap (fun e =>
    match e with
    | DirEntry.file n c => if endsTxt (pyLower n) then some (n, c) else none
    | DirEntry.dir _ => none)

/-- Is this entry a subdirectory whose name the loader filter accepts. -/
def isTxtDir : DirEntry → Bool
  | DirEntry.dir n => endsTxt (pyLower n)
  | DirEntry.file _ _ => false

/-! Lemmas about the two replace passes of the normalizer. -/

lemma repJson_nil : repJson [] = [] := by simp [repJson]

lemma repAll3_nil : repAll3 [] = [] := by simp [repAll3]

lemma repJson_cons_pos {c : Char} {rest : List Char}
    (h : fenceJson.isPrefixOf (c :: rest) = true) :
    repJson (c :: rest) = repJson (rest.drop 6) := by
  rw [repJson, if_pos h]

lemma repJson_cons_neg {c : Char} {rest : List Char}
    (h : fenceJson.isPrefixOf (c :: rest) = false) :
    repJson (c :: rest) = c :: repJson rest := by
  rw [repJson, if_neg]
  simp [h]

lemma repAll3_cons_pos {c : Char} {rest : List Char}
    (h : fence3.isPrefixOf (c :: rest) = true) :
    repAll3 (c :: rest) = repAll3 (rest.drop 2) := by
  rw [repAll3, if_pos h]

lemma repAll3_cons_neg {c : Char} {rest : List Char}
    (h : fence3.isPrefixOf (c :: rest) = false) :
    repAll3 (c :: rest) = c :: repAll3 rest := by
  rw [repAll3, if_neg]
  simp [h]

lemma isPre_fenceJson_btick {c : Char} {rest : List Char}
    (h : fenceJson.isPrefixOf (c :: rest) = true) : c = btick := by
  simp [fenceJson, List.isPrefixOf] at h
  exact h.1.symm

lemma isPre_fence3_btick {c : Char} {rest : List Char}
    (h : fence3.isPrefixOf (c :: rest) = true) : c = btick := by
  simp [fence3, List.isPrefixOf] at h
  exact h.1.symm

lemma repJson_cons_ne {c : Char} {rest : List Char} (h : c ≠ btick) :
    repJson (c :: rest) = c :: repJson rest := by
  cases hp : fenceJson.isPrefixOf (c :: rest)
  · exact repJson_cons_neg hp
  · exact absurd (isPre_fenceJson_btick hp) h

lemma repAll3_cons_ne {c : Char} {rest : List Char} (h : c ≠ btick) :
    repAll3 (c :: rest) = c :: repAll3 rest := by
  cases hp : fence3.isPrefixOf (c :: rest)
  · exact repAll3_cons_neg hp
  · exact absurd (isPre_fence3_btick hp) h

lemma isPre_extend {l xs t : List Char} (h : l.isPrefixOf xs = true) :
    l.isPrefixOf (xs ++ t) = true := by
  rw [ List.isPrefixOf_iff_prefix] at h ⊢
  exact h.trans (List.prefix_append xs t)

lemma isPre_restrict {l xs t : List Char} (h : l.isPrefixOf (xs ++ t) = true)
    (hl : l.length ≤ xs.length) : l.isPrefixOf xs = true := by
  rw [ List.isPrefixOf_iff_prefix, List.prefix_iff_eq_take] at h ⊢
  rw [List.take_append_of_le_length hl] at h
  exact h

lemma isPre_fence3_of_fenceJson {v : List Char} (h : fenceJson.isPrefixOf v = true) :
    fence3.isPrefixOf v = true := by
  rw [ List.isPrefixOf_iff_prefix] at h ⊢
  exact List.IsPrefix.trans (by decide) h

/-- A window that reaches a newline cannot match the json fence opener. -/
lemma win_fenceJson {xs : List Char} (t : List Char) (h : xs.length ≤ 6) :
    fenceJson.isPrefixOf (xs ++ '\n' :: t) = false := by
  have hb : (btick == '\n') = false := by decide
  rcases xs with _ | ⟨a, _ | ⟨b, _ | ⟨c, _ | ⟨d, _ | ⟨e, _ | ⟨f, r⟩⟩⟩⟩⟩⟩
  · simp [fenceJson, List.isPrefixOf, hb]
  · simp [fenceJson, List.isPrefixOf, hb]
  · simp [fenceJson, List.isPrefixOf, hb]
  · simp [fenceJson, List.isPrefixOf]
  · simp [fenceJson, List.isPrefixOf]
  · simp [fenceJson, List.isPrefixOf]
  · have hr : r = [] := by
      cases r with
      | nil => rfl
      | cons x rs =>
        exfalso
        simp only [List.length_cons] at h
        omega
    subst hr
    simp [fenceJson, List.isPrefixOf]

/-- A window that reaches a newline cannot match the bare fence. -/
lemma win_fence3 {xs : List Char} (t : List Char) (h : xs.length ≤ 2) :
    fence3.isPrefixOf (xs ++ '\n' :: t) = false := by
  have hb : (btick == '\n') = false := by decide
  rcases xs with _ | ⟨a, _ | ⟨b, r⟩⟩
  · simp [fence3, List.isPrefixOf, hb]
  · simp [fence3, List.isPrefixOf, hb]
  · have hr : r = [] := by
      cases r with
      | nil => rfl
      | cons x rs =>
        exfalso
        simp only [List.length_cons] at h
        omega
    subst hr
    simp [fence3, List.isPrefixOf, hb]

/-- The json-fence replace pass distributes over a newline boundary: no
match can span it. -/
lemma repJson_split_aux : ∀ (n : Nat) (xs t : List Char), xs.length = n →
    repJson (xs ++ '\n' :: t) = repJson xs ++ repJson ('\n' :: t) := by
  intro n
  induction n using Nat.strong_induction_on with
  | _ n ih =>
    intro xs t hlen
    cases xs with
    | nil => simp [repJson_nil]
    | cons c rest =>
      simp only [List.length_cons] at hlen
      cases hp : fenceJson.isPrefixOf ((c :: rest) ++ '\n' :: t)
      · have hp2 : fenceJson.isPrefixOf (c :: rest) = false := by
          cases hq : fenceJson.isPrefixOf (c :: rest)
          · rfl
          · rw [isPre_extend hq] at hp
            cases hp
        rw [List.cons_append] at hp
        rw [List.cons_append, repJson_cons_neg hp, repJson_cons_neg hp2,
          ih rest.length (by omega) rest t rfl]
        simp
      · have hlen7 : 7 ≤ (c :: rest).length := by
          by_contra hle
          rw [win_fenceJson t (by simp at hle ⊢; omega)] at hp
          cases hp
        have hp2 : fenceJson.isPrefixOf (c :: rest) = true := by
          refine isPre_restrict hp ?_
          simpa [fenceJson] using hlen7
        rw [List.cons_append] at hp
        rw [List.cons_append, repJson_cons_pos hp, repJson_cons_pos hp2]
        have hdrop : (rest ++ '\n' :: t).drop 6 = rest.drop 6 ++ '\n' :: t := by
          refine List.drop_append_of_le_length ?_
          simp at hlen7
          omega
        rw [hdrop, ih (rest.drop 6).length (by simp; omega) (rest.drop 6) t rfl]

lemma repJson_split (xs t : List Char) :
    repJson (xs ++ '\n' :: t) = repJson xs ++ repJson ('\n' :: t) :=
  repJson_split_aux xs.length xs t rfl

/-- The bare-fence replace pass distributes over a newline boundary. -/
lemma repAll3_split_aux : ∀ (n : Nat) (xs t : List Char), xs.length = n →
    repAll3 (xs ++ '\n' :: t) = repAll3 xs ++ repAll3 ('\n' :: t) := by
  intro n
  induction n using Nat.strong_induction_on with
  | _ n ih =>
    intro xs t hlen
    cases xs with
    | nil => simp [repAll3_nil]
    | cons c rest =>
      simp only [List.length_cons] at hlen
      cases hp : fence3.isPrefixOf ((c :: rest) ++ '\n' :: t)
      · have hp2 : fence3.isPrefixOf (c :: rest) = false := by
          cases hq : fence3.isPrefixOf (c :: rest)
          · rfl
          · rw [isPre_extend hq] at hp
            cases hp
        rw [List.cons_append] at hp
        rw [List.cons_append, repAll3_cons_neg hp, repAll3_cons_neg hp2,
          ih rest.length (by omega) rest t rfl]
        simp
      · have hlen3 : 3 ≤ (c :: rest).length := by
          by_contra hle
          rw [win_fence3 t (by simp at hle ⊢; omega)] at hp
          cases hp
        have hp2 : fence3.isPrefixOf (c :: rest) = true := by
          refine isPre_restrict hp ?_
          simpa [fence3] using hlen3
        rw [List.cons_append] at hp
        rw [List.cons_append, repAll3_cons_pos hp, repAll3_cons_pos hp2]
        have hdrop : (rest ++ '\n' :: t).drop 2 = rest.drop 2 ++ '\n' :: t := by
          refine List.drop_append_of_le_length ?_
          simp at hlen3
          omega
        rw [hdrop, ih (rest.drop 2).length (by simp; omega) (rest.drop 2) t rfl]

lemma repAll3_split (xs t : List Char) :
    repAll3 (xs ++ '\n' :: t) = repAll3 xs ++ repAll3 ('\n' :: t) :=
  repAll3_split_aux xs.length xs t rfl

/-! The bare-fence replace pass leaves no fence behind. -/

lemma isPre1_repAll3 {r : List Char} (h : [btick].isPrefixOf r = false) :
    [btick].isPrefixOf (repAll3 r) = false := by
  cases r with
  | nil => simp [repAll3_nil, List.isPrefixOf]
  | cons e r2 =>
    have he : e ≠ btick := by
      intro hee
      subst hee
      simp [List.isPrefixOf] at h
    rw [repAll3_cons_ne he]
    simp [List.isPrefixOf, beq_eq_false_iff_ne.mpr (Ne.symm he)]

lemma isPre2_repAll3 {rest : List Char}
    (h : [btick, btick].isPrefixOf rest = false) :
    [btick, btick].isPrefixOf (repAll3 rest) = false := by
  cases rest with
  | nil => simp [repAll3_nil, List.isPrefixOf]
  | cons d r =>
    cases hp : fence3.isPrefixOf (d :: r)
    · rw [repAll3_cons_neg hp]
      by_cases hd : d = btick
      · subst hd
        have hr : [btick].isPrefixOf r = false := by
          simp [List.isPrefixOf] at h ⊢
          exact h
        have h1 := isPre1_repAll3 hr
        simp [List.isPrefixOf]
        exact h1
      · simp [List.isPrefixOf, beq_eq_false_iff_ne.mpr (Ne.symm hd)]
    · exfalso
      have h2 : [btick, btick].isPrefixOf (d :: r) = true := by
        rw [ List.isPrefixOf_iff_prefix] at hp ⊢
        exact List.IsPrefix.trans (by decide) hp
      rw [h2] at h
      cases h

lemma noNewFence {c : Char} {rest : List Char}
    (h : fence3.isPrefixOf (c :: rest) = false) :
    fence3.isPrefixOf (c :: repAll3 rest) = false := by
  by_cases hc : c = btick
  · subst hc
    have h2 : [btick, btick].isPrefixOf rest = false := by
      simp [fence3, List.isPrefixOf] at h ⊢
      exact h
    have h3 := isPre2_repAll3 h2
    simp [fence3, List.isPrefixOf]
    exact h3
  · simp [fence3, List.isPrefixOf, beq_eq_false_iff_ne.mpr (Ne.symm hc)]

lemma has3_repAll3_aux : ∀ (n : Nat) (u : List Char), u.length = n →
    has3 (repAll3 u) = false := by
  intro n
  induction n using Nat.strong_induction_on with
  | _ n ih =>
    intro u hlen
    cases u with
    | nil => simp [repAll3_nil, has3]
    | cons c rest =>
      simp only [List.length_cons] at hlen
      cases hp : fence3.isPrefixOf (c :: rest)
      · rw [repAll3_cons_neg hp, has3,
          ih rest.length (by omega) rest rfl, Bool.or_false]
        exact noNewFence hp
      · rw [repAll3_cons_pos hp]
        exact ih (rest.drop 2).length (by simp; omega) (rest.drop 2) rfl

lemma has3_repAll3 (u : List Char) : has3 (repAll3 u) = false :=
  has3_repAll3_aux u.length u rfl

/-! Both replace passes fix any fence-free input. -/

lemma repAll3_of_not_has3 {u : List Char} (h : has3 u = false) : repAll3 u = u := by
  induction u with
  | nil => exact repAll3_nil
  | cons c rest ih =>
    rw [has3, Bool.or_eq_false_iff] at h
    rw [repAll3_cons_neg h.1, ih h.2]

lemma repJson_of_not_has3 {u : List Char} (h : has3 u = false) : repJson u = u := by
  induction u with
  | nil => exact repJson_nil
  | cons c rest ih =>
    rw [has3, Bool.or_eq_false_iff] at h
    have hj : fenceJson.isPrefixOf (c :: rest) = false := by
      cases hq : fenceJson.isPrefixOf (c :: rest)
      · rfl
      · rw [isPre_fence3_of_fenceJson hq] at h
        exact absurd h.1 (by simp)
    rw [repJson_cons_neg hj, ih h.2]

/-! Substring monotonicity of the fence detector under stripping. -/

lemma has3_of_suffix {v u : List Char} (hs : v <:+ u) (h : has3 v = true) :
    has3 u = true := by
  obtain ⟨a, rfl⟩ := hs
  induction a with
  | nil => simpa using h
  | cons x a ih =>
    rw [List.cons_append, has3, ih, Bool.or_true]

lemma has3_of_pre {v u : List Char} (hs : v <+: u) (h : has3 v = true) :
    has3 u = true := by
  obtain ⟨t, rfl⟩ := hs
  induction v with
  | nil => simp [has3] at h
  | cons c v ih =>
    rw [has3] at h
    rw [List.cons_append, has3]
    cases hq : fence3.isPrefixOf (c :: v)
    · rw [hq, Bool.false_or] at h
      rw [ih h, Bool.or_true]
    · have h2 := isPre_extend (t := t) hq
      rw [List.cons_append] at h2
      rw [h2, Bool.true_or]

lemma rstripL_pre (l : List Char) : rstripL l <+: l := by
  have h : l.reverse.dropWhile isPySpace <:+ l.reverse := List.dropWhile_suffix _
  have h2 := List.reverse_prefix.mpr h
  rwa [List.reverse_reverse] at h2

lemma has3_pyStripL {l : List Char} (h : has3 l = false) :
    has3 (pyStripL l) = false := by
  have h1 : has3 (lstripL l) = false := by
    cases hq : has3 (lstripL l)
    · rfl
    · rw [has3_of_suffix (List.dropWhile_suffix isPySpace) hq] at h
      cases h
  cases hq : has3 (pyStripL l)
  · rfl
  · rw [has3_of_pre (rstripL_pre (lstripL l)) hq] at h1
    cases h1

/-! Idempotence of the strip pass. -/

lemma dropWhile_head_false {p : Char → Bool} (l : List Char) :
    ∀ {c : Char} {w : List Char}, l.dropWhile p = c :: w → p c = false := by
  induction l with
  | nil =>
    intro c w h
    cases h
  | cons x l ih =>
    intro c w h
    rw [List.dropWhile_cons] at h
    split at h
    · exact ih h
    · cases h
      rename_i hx
      simpa using hx

lemma dropWhile_idem {p : Char → Bool} (l : List Char) :
    (l.dropWhile p).dropWhile p = l.dropWhile p := by
  cases hq : l.dropWhile p with
  | nil => simp
  | cons c w =>
    refine List.dropWhile_cons_of_neg ?_
    simp [dropWhile_head_false _ hq]

lemma rstripL_idem (l : List Char) : rstripL (rstripL l) = rstripL l := by
  simp only [rstripL, List.reverse_reverse, dropWhile_idem]

lemma lstripL_pyStripL (l : List Char) : lstripL (pyStripL l) = pyStripL l := by
  cases hq : pyStripL l with
  | nil => simp [lstripL]
  | cons c w =>
    have hpre : pyStripL l <+: lstripL l := rstripL_pre _
    rw [hq] at hpre
    obtain ⟨t, ht⟩ := hpre
    rw [List.cons_append] at ht
    have hc : isPySpace c = false := dropWhile_head_false l ht.symm
    simp only [lstripL]
    refine List.dropWhile_cons_of_neg ?_
    simp [hc]

lemma pyStripL_idem (l : List Char) : pyStripL (pyStripL l) = pyStripL l :=
  calc pyStripL (pyStripL l) = rstripL (lstripL (pyStripL l)) := rfl
    _ = rstripL (pyStripL l) := by rw [lstripL_pyStripL]
    _ = rstripL (rstripL (lstripL l)) := rfl
    _ = rstripL (lstripL l) := rstripL_idem _
    _ = pyStripL l := rfl

/-! The strip pass absorbs the newline the fences leave behind. -/

lemma pyStripL_cons_nl (l : List Char) : pyStripL ('\n' :: l) = pyStripL l := by
  have h : isPySpace '\n' = true := by decide
  simp only [pyStripL, lstripL, List.dropWhile_cons_of_pos h]

lemma rstripL_append_nl (w : List Char) : rstripL (w ++ ['\n']) = rstripL w := by
  have h : isPySpace '\n' = true := by decide
  simp only [rstripL, List.reverse_append, List.reverse_cons, List.reverse_nil,
    List.nil_append, List.singleton_append, List.dropWhile_cons_of_pos h]

lemma pyStripL_append_nl (l : List Char) : pyStripL (l ++ ['\n']) = pyStripL l := by
  have h : isPySpace '\n' = true := by decide
  show rstripL (lstripL (l ++ ['\n'])) = rstripL (lstripL l)
  rw [lstripL, lstripL, List.dropWhile_append]
  by_cases hq : (l.dropWhile isPySpace).isEmpty
  · rw [if_pos hq]
    have h2 : List.dropWhile isPySpace ['\n'] = [] := by
      simp [List.dropWhile_cons_of_pos h]
    rw [h2, List.isEmpty_iff] at *
    rw [hq]
  · rw [if_neg hq, rstripL_append_nl]

/-! Computation of the normalizer on fence-wrapped input. -/

lemma repJson_fenceJson_head (t : List Char) : repJson (fenceJson ++ t) = repJson t := by
  have hp : fenceJson.isPrefixOf (btick :: ([btick, btick, 'j', 's', 'o', 'n'] ++ t)) = true := by
    rw [ List.isPrefixOf_iff_prefix]
    exact List.prefix_append fenceJson t
  show repJson (btick :: ([btick, btick, 'j', 's', 'o', 'n'] ++ t)) = repJson t
  rw [repJson_cons_pos hp]
  rfl

lemma repAll3_fence3_head (t : List Char) : repAll3 (fence3 ++ t) = repAll3 t := by
  have hp : fence3.isPrefixOf (btick :: ([btick, btick] ++ t)) = true := by
    rw [ List.isPrefixOf_iff_prefix]
    exact List.prefix_append fence3 t
  show repAll3 (btick :: ([btick, btick] ++ t)) = repAll3 t
  rw [repAll3_cons_pos hp]
  rfl

lemma repJson_fence3 : repJson fence3 = fence3 := by
  show repJson [btick, btick, btick] = [btick, btick, btick]
  rw [repJson_cons_neg (by decide), repJson_cons_neg (by decide),
    repJson_cons_neg (by decide), repJson_nil]

lemma repAll3_fence3 : repAll3 fence3 = [] := by
  have h := repAll3_fence3_head []
  rw [List.append_nil] at h
  rw [h, repAll3_nil]

lemma repJson_nl_fence3 : repJson ('\n' :: fence3) = '\n' :: fence3 := by
  rw [repJson_cons_ne (by decide), repJson_fence3]

lemma repAll3_nl_fence3 : repAll3 ('\n' :: fence3) = ['\n'] := by
  rw [repAll3_cons_ne (by decide), repAll3_fence3]

/-- The common core of both wrapped forms: the normalizer on the part that
follows the opening fence. -/
lemma normalizeRaw_core (inner : List Char) :
    pyStripL (repAll3 (repJson ('\n' :: (inner ++ '\n' :: fence3)))) = normalizeRaw inner := by
  have e1 : repJson ('\n' :: (inner ++ '\n' :: fence3))
      = '\n' :: (repJson inner ++ '\n' :: fence3) := by
    have hsh : ('\n' :: (inner ++ '\n' :: fence3)) = ('\n' :: inner) ++ '\n' :: fence3 := by
      simp
    rw [hsh, repJson_split, repJson_cons_ne (by decide), repJson_nl_fence3]
    simp
  have e2 : repAll3 ('\n' :: (repJson inner ++ '\n' :: fence3))
      = '\n' :: (repAll3 (repJson inner) ++ ['\n']) := by
    have hsh : ('\n' :: (repJson inner ++ '\n' :: fence3))
        = ('\n' :: repJson inner) ++ '\n' :: fence3 := by
      simp
    rw [hsh, repAll3_split, repAll3_cons_ne (by decide), repAll3_nl_fence3]
    simp
  rw [e1, e2, pyStripL_cons_nl, pyStripL_append_nl]
  rfl

lemma normalizeRaw_wrapJson (inner : List Char) :
    normalizeRaw (fenceJson ++ '\n' :: (inner ++ '\n' :: fence3)) = normalizeRaw inner := by
  show pyStripL (repAll3 (repJson (fenceJson ++ '\n' :: (inner ++ '\n' :: fence3))))
      = normalizeRaw inner
  rw [repJson_fenceJson_head]
  exact normalizeRaw_core inner

lemma normalizeRaw_wrapBare (inner : List Char) :
    normalizeRaw (fence3 ++ '\n' :: (inner ++ '\n' :: fence3)) = normalizeRaw inner := by
  show pyStripL (repAll3 (repJson (fence3 ++ '\n' :: (inner ++ '\n' :: fence3))))
      = normalizeRaw inner
  rw [repJson_split, repJson_fence3, repAll3_fence3_head]
  exact normalizeRaw_core inner

lemma normalizeRaw_idem (l : List Char) :
    normalizeRaw (normalizeRaw l) = normalizeRaw l := by
  have h3 : has3 (repAll3 (repJson l)) = false := has3_repAll3 _
  have h4 : has3 (normalizeRaw l) = false := has3_pyStripL h3
  show pyStripL (repAll3 (repJson (normalizeRaw l))) = normalizeRaw l
  rw [repJson_of_not_has3 h4, repAll3_of_not_has3 h4]
  exact pyStripL_idem (repAll3 (repJson l))

/-! Branch lemmas for the embedded job. -/

lemma processTranscript_client_err {fn tx e dir : String}
    {client : String → String → Except String String}
    {parse : String → Except String Json}
    {write : String → Json → Except String Unit}
    (hc : client fn tx = Except.error e) :
    processTranscript fn tx client parse write dir = (⟨fn, none, some e⟩, none) := by
  simp [processTranscript, hc]

lemma processTranscript_parse_err {fn tx raw e dir : String}
    {client : String → String → Except String String}
    {parse : String → Except String Json}
    {write : String → Json → Except String Unit}
    (hc : client fn tx = Except.ok raw)
    (hp : parse (pyNormalize raw) = Except.error e) :
    processTranscript fn tx client parse write dir
      = (⟨fn, none, some ("JSON parse error: " ++ e)⟩, none) := by
  simp [processTranscript, hc, hp]

lemma processTranscript_write_err {fn tx raw e dir : String} {obj : Json}
    {client : String → String → Except String String}
    {parse : String → Except String Json}
    {write : String → Json → Except String Unit}
    (hc : client fn tx = Except.ok raw)
    (hp : parse (pyNormalize raw) = Except.ok obj)
    (hw : write (pyJoin dir (transcriptId fn ++ ".json")) obj = Except.error e) :
    processTranscript fn tx client parse write dir = (⟨fn, none, some e⟩, none) := by
  simp [processTranscript, hc, hp, hw]

lemma processTranscript_ok {fn tx raw dir : String} {obj : Json}
    {client : String → String → Except String String}
    {parse : String → Except String Json}
    {write : String → Json → Except String Unit}
    (hc : client fn tx = Except.ok raw)
    (hp : parse (pyNormalize raw) = Except.ok obj)
    (hw : write (pyJoin dir (transcriptId fn ++ ".json")) obj = Except.ok ()) :
    processTranscript fn tx client parse write dir
      = (⟨fn, some (pyJoin dir (transcriptId fn ++ ".json")), none⟩,
        some (pyJoin dir (transcriptId fn ++ ".json"), obj)) := by
  simp [processTranscript, hc, hp, hw]

lemma processTranscript_name (fn tx dir : String)
    (client : String → String → Except String String)
    (parse : String → Except String Json)
    (write : String → Json → Except String Unit) :
    (processTranscript fn tx client parse write dir).1.source_filename = fn := by
  rcases hc : client fn tx with e | raw
  · rw [processTranscript_client_err hc]
  · rcases hp : parse (pyNormalize raw) with e | obj
    · rw [processTranscript_parse_err hc hp]
    · rcases hw : write (pyJoin dir (transcriptId fn ++ ".json")) obj with e | u
      · rw [processTranscript_write_err hc hp hw]
      · rw [processTranscript_ok hc hp hw]

lemma runJobs_append (ts₁ ts₂ : List (String × String))
    (client : String → String → Except String String)
    (parse : String → Except String Json)
    (write : String → Json → Except String Unit) (dir : String) :
    runJobs (ts₁ ++ ts₂) client parse write dir
      = runJobs ts₁ client parse write dir ++ runJobs ts₂ client parse write dir := by
  simp [runJobs]

/-- C4: the fence-stripping normalization of line 37 is idempotent on every
input string, and identical inner content wrapped in a json-tagged fence, in a
bare fence, or in no fence at all normalizes to the same string, hence parses
to the same document. -/
theorem claim_C4 :
    (∀ s : String, pyNormalize (pyNormalize s) = pyNormalize s) ∧
    (∀ inner : String, pyNormalize (wrapJsonFence inner) = pyNormalize inner ∧
      pyNormalize (wrapBareFence inner) = pyNormalize inner) := by
  refine ⟨fun s => ?_, fun inner => ⟨?_, ?_⟩⟩
  · show String.mk (normalizeRaw (String.mk (normalizeRaw s.data)).data) = pyNormalize s
    have h : (String.mk (normalizeRaw s.data)).data = normalizeRaw s.data := rfl
    rw [h, normalizeRaw_idem]
    rfl
  · show String.mk (normalizeRaw (wrapJsonFence inner).data) = pyNormalize inner
    have h : (wrapJsonFence inner).data
        = fenceJson ++ '\n' :: (inner.data ++ '\n' :: fence3) := rfl
    rw [h, normalizeRaw_wrapJson]
    rfl
  · show String.mk (normalizeRaw (wrapBareFence inner).data) = pyNormalize inner
    have h : (wrapBareFence inner).data
        = fence3 ++ '\n' :: (inner.data ++ '\n' :: fence3) := rfl
    rw [h, normalizeRaw_wrapBare]
    rfl

/-- C2: every failure inside a job, at the client call, at parsing, or at the
file write, is converted into a JobResult carrying the source filename and an
error message; the batch of jobs splits pointwise, so one job's outcome cannot
reach a sibling job or the orchestrator. -/
theorem claim_C2 (fn tx : String)
    (client : String → String → Except String String)
    (parse : String → Except String Json)
    (write : String → Json → Except String Unit) (dir : String) :
    ((processTranscript fn tx client parse write dir).1.source_filename = fn) ∧
    (∀ e, client fn tx = Except.error e →
      (processTranscript fn tx client parse write dir).1 = ⟨fn, none, some e⟩) ∧
    (∀ raw e, client fn tx = Except.ok raw → parse (pyNormalize raw) = Except.error e →
      (processTranscript fn tx client parse write dir).1
        = ⟨fn, none, some ("JSON parse error: " ++ e)⟩) ∧
    (∀ raw obj e, client fn tx = Except.ok raw → parse (pyNormalize raw) = Except.ok obj →
      write (pyJoin dir (transcriptId fn ++ ".json")) obj = Except.error e →
      (processTranscript fn tx client parse write dir).1 = ⟨fn, none, some e⟩) ∧
    (∀ ts₁ ts₂, runJobs (ts₁ ++ ts₂) client parse write dir
      = runJobs ts₁ client parse write dir ++ runJobs ts₂ client parse write dir) := by
  refine ⟨processTranscript_name fn tx dir client parse write,
    fun e hc => ?_, fun raw e hc hp => ?_, fun raw obj e hc hp hw => ?_,
    fun ts₁ ts₂ => runJobs_append ts₁ ts₂ client parse write dir⟩
  · rw [processTranscript_client_err hc]
  · rw [processTranscript_parse_err hc hp]
  · rw [processTranscript_write_err hc hp hw]

/-- C2 witness: a failing client call on a concrete job becomes an error
JobResult with that filename. -/
theorem claim_C2_witness :
    (processTranscript "a.txt" "text" (fun _ _ => Except.error "boom")
      (fun _ => Except.ok Json.null) (fun _ _ => Except.ok ()) "quiz").1
      = ⟨"a.txt", none, some "boom"⟩ :=
  (claim_C2 "a.txt" "text" (fun _ _ => Except.error "boom")
    (fun _ => Except.ok Json.null) (fun _ _ => Except.ok ()) "quiz").2.1 "boom" rfl

/-- C8: every JobResult a job produces has exactly one of output_path and
error set: success carries a path and no error, failure an error and no
path. -/
theorem claim_C8 (fn tx : String)
    (client : String → String → Except String String)
    (parse : String → Except String Json)
    (write : String → Json → Except String Unit) (dir : String) :
    ((processTranscript fn tx client parse write dir).1.output_path.isSome = true ∧
      (processTranscript fn tx client parse write dir).1.error = none) ∨
    ((processTranscript fn tx client parse write dir).1.output_path = none ∧
      (processTranscript fn tx client parse write dir).1.error.isSome = true) := by
  rcases hc : client fn tx with e | raw
  · right
    rw [processTranscript_client_err hc]
    exact ⟨rfl, rfl⟩
  · rcases hp : parse (pyNormalize raw) with e | obj
    · right
      rw [processTranscript_parse_err hc hp]
      exact ⟨rfl, rfl⟩
    · rcases hw : write (pyJoin dir (transcriptId fn ++ ".json")) obj with e | u
      · right
        rw [processTranscript_write_err hc hp hw]
        exact ⟨rfl, rfl⟩
      · left
        rw [processTranscript_ok hc hp hw]
        exact ⟨rfl, rfl⟩

/-- C10: a job that fails before the write phase, in the client call or in
parsing, persists nothing: no (path, value) pair reaches the disk for it. -/
theorem claim_C10 (fn tx : String)
    (client : String → String → Except String String)
    (parse : String → Except String Json)
    (write : String → Json → Except String Unit) (dir : String) :
    (∀ e, client fn tx = Except.error e →
      (processTranscript fn tx client parse write dir).2 = none) ∧
    (∀ raw e, client fn tx = Except.ok raw → parse (pyNormalize raw) = Except.error e →
      (processTranscript fn tx client parse write dir).2 = none) := by
  refine ⟨fun e hc => ?_, fun raw e hc hp => ?_⟩
  · rw [processTranscript_client_err hc]
  · rw [processTranscript_parse_err hc hp]

/-- C10 witness: a concrete parse failure writes nothing. -/
theorem claim_C10_witness :
    (processTranscript "a.txt" "text" (fun _ _ => Except.ok "not json")
      (fun _ => Except.error "Expecting value: line 1 column 1 (char 0)")
      (fun _ _ => Except.ok ()) "quiz").2 = none :=
  (claim_C10 "a.txt" "text" (fun _ _ => Except.ok "not json")
    (fun _ => Except.error "Expecting value: line 1 column 1 (char 0)")
    (fun _ _ => Except.ok ()) "quiz").2 "not json"
    "Expecting value: line 1 column 1 (char 0)" rfl rfl

/-- C6: when the fence-stripped response fails to parse, the job produces a
failure JobResult whose message is the parse-error classification prefix
followed by the parser diagnostic, nothing is written for that job, and the
batch still splits pointwise, so the other jobs proceed. The parse outcome is
consulted exactly once, so there is no retry. -/
theorem claim_C6 (fn tx raw e : String)
    (client : String → String → Except String String)
    (parse : String → Except String Json)
    (write : String → Json → Except String Unit) (dir : String)
    (hc : client fn tx = Except.ok raw)
    (hp : parse (pyNormalize raw) = Except.error e) :
    (processTranscript fn tx client parse write dir).1
      = ⟨fn, none, some ("JSON parse error: " ++ e)⟩ ∧
    (processTranscript fn tx client parse write dir).2 = none ∧
    (∀ ts₁ ts₂, runJobs (ts₁ ++ ts₂) client parse write dir
      = runJobs ts₁ client parse write dir ++ runJobs ts₂ client parse write dir) := by
  rw [processTranscript_parse_err hc hp]
  exact ⟨rfl, rfl, fun ts₁ ts₂ => runJobs_append ts₁ ts₂ client parse write dir⟩

/-- C6 witness: a concrete truncated response yields the parse-error
JobResult. -/
theorem claim_C6_witness :
    (processTranscript "a.txt" "text" (fun _ _ => Except.ok "\x7b\x22a\x22:")
      (fun _ => Except.error "Expecting value: line 1 column 6 (char 5)")
      (fun _ _ => Except.ok ()) "quiz").1
      = ⟨"a.txt", none,
        some ("JSON parse error: " ++ "Expecting value: line 1 column 6 (char 5)")⟩ :=
  (claim_C6 "a.txt" "text" "\x7b\x22a\x22:" "Expecting value: line 1 column 6 (char 5)"
    (fun _ _ => Except.ok "\x7b\x22a\x22:")
    (fun _ => Except.error "Expecting value: line 1 column 6 (char 5)")
    (fun _ _ => Except.ok ()) "quiz" rfl rfl).1

/-- C3: the transcript identifier strips the extension and uppercases the
remainder, as on the two example filenames, and every successful job writes to
the output directory joined with that identifier and the json extension; for
an ordinary directory name the join is exactly the slash-separated template of
the claim. -/
theorem claim_C3 :
    transcriptId "lecture1.txt" = "LECTURE1" ∧
    transcriptId "intro.TXT" = "INTRO" ∧
    (∀ fn tx dir p (client : String → String → Except String String)
      (parse : String → Except String Json)
      (write : String → Json → Except String Unit),
      (processTranscript fn tx client parse write dir).1.output_path = some p →
      p = pyJoin dir (transcriptId fn ++ ".json")) ∧
    (∀ dir name : String, dir ≠ "" → dir.data.getLast? ≠ some '/' →
      name.data.head? ≠ some '/' → pyJoin dir name = dir ++ "/" ++ name) := by
  refine ⟨by decide, by decide, ?_, ?_⟩
  · intro fn tx dir p client parse write hpath
    rcases hc : client fn tx with e | raw
    · rw [processTranscript_client_err hc] at hpath
      cases hpath
    · rcases hp : parse (pyNormalize raw) with e | obj
      · rw [processTranscript_parse_err hc hp] at hpath
        cases hpath
      · rcases hw : write (pyJoin dir (transcriptId fn ++ ".json")) obj with e | u
        · rw [processTranscript_write_err hc hp hw] at hpath
          cases hpath
        · rw [processTranscript_ok hc hp hw] at hpath
          cases hpath
          rfl
  · intro dir name h1 h2 h3
    rw [pyJoin, if_neg, if_neg]
    · simp [h1, h2]
    · simp [h3]

/-- C3 witness: on a concrete successful job the written path is the joined
template, and the default output directory produces a plain slash. -/
theorem claim_C3_witness :
    "quiz/A.json" = pyJoin "quiz" (transcriptId "a.txt" ++ ".json") ∧
    pyJoin "quiz" "A.json" = "quiz" ++ "/" ++ "A.json" := by
  constructor
  · exact claim_C3.2.2.1 "a.txt" "text" "quiz" "quiz/A.json"
      (fun _ _ => Except.ok "raw") (fun _ => Except.ok Json.null)
      (fun _ _ => Except.ok ()) (by decide)
  · exact claim_C3.2.2.2 "quiz" "A.json" (by decide) (by decide) (by decide)

/-- C9: when the loader reports an empty transcript list the run stops with
the notice, carrying out no jobs and producing no results or writes. -/
theorem claim_C9 (input_dir output_dir : String) (entries : List DirEntry)
    (client : String → String → Except String String)
    (parse : String → Except String Json)
    (write : String → Json → Except String Unit)
    (h : loadTranscripts input_dir entries = Except.ok []) :
    mainRun input_dir entries client parse write output_dir
      = RunOutcome.notice ("No transcript files found in \x27" ++ input_dir ++ "\x27.") := by
  rw [mainRun, h]
  rfl

/-- C9 witness: the empty listing stops with the notice. -/
theorem claim_C9_witness :
    mainRun "texts" [] (fun _ _ => Except.error "unused")
      (fun _ => Except.ok Json.null) (fun _ _ => Except.ok ()) "quiz"
      = RunOutcome.notice ("No transcript files found in \x27" ++ "texts" ++ "\x27.") :=
  claim_C9 "texts" "quiz" [] (fun _ _ => Except.error "unused")
    (fun _ => Except.ok Json.null) (fun _ _ => Except.ok ()) rfl

lemma processTranscript_written (fn tx dir : String)
    (client : String → String → Except String String)
    (parse : String → Except String Json)
    (write : String → Json → Except String Unit) :
    (processTranscript fn tx client parse write dir).2.isSome
      = (processTranscript fn tx client parse write dir).1.error.isNone := by
  rcases hc : client fn tx with e | raw
  · rw [processTranscript_client_err hc]
    rfl
  · rcases hp : parse (pyNormalize raw) with e | obj
    · rw [processTranscript_parse_err hc hp]
      rfl
    · rcases hw : write (pyJoin dir (transcriptId fn ++ ".json")) obj with e | u
      · rw [processTranscript_write_err hc hp hw]
        rfl
      · rw [processTranscript_ok hc hp hw]
        rfl

/-- The concrete five-transcript batch of the claim: one client call fails. -/
def fiveBatch : List (String × String) :=
  [("a.txt", "one"), ("b.txt", "two"), ("bad.txt", "three"),
    ("c.txt", "four"), ("d.txt", "five")]

/-- A client that fails on exactly one of the five filenames. -/
def oneBadClient : String → String → Except String String := fun fn _ =>
  if fn = "bad.txt" then Except.error "client failure" else Except.ok "raw"

/-- C7: the orchestrator produces exactly one JobResult per loaded transcript
and preserves the input filenames; the failure count equals the count of jobs
whose own inputs fail, and a result is written exactly when its job succeeds;
on the concrete five-transcript batch with one failing client call there are
one failure result, four success results and four persisted outputs. -/
theorem claim_C7 (ts : List (String × String))
    (client : String → String → Except String String)
    (parse : String → Except String Json)
    (write : String → Json → Except String Unit) (dir : String) :
    ((runJobs ts client parse write dir).length = ts.length) ∧
    ((runJobs ts client parse write dir).map (fun r => r.1.source_filename)
      = ts.map Prod.fst) ∧
    ((runJobs ts client parse write dir).countP (fun r => r.1.error.isSome)
      = ts.countP (fun p =>
          (processTranscript p.1 p.2 client parse write dir).1.error.isSome)) ∧
    ((runJobs ts client parse write dir).countP (fun r => r.2.isSome)
      = (runJobs ts client parse write dir).countP (fun r => r.1.error.isNone)) ∧
    ((runJobs fiveBatch oneBadClient (fun _ => Except.ok Json.null)
        (fun _ _ => Except.ok ()) "quiz").countP (fun r => r.1.error.isSome) = 1 ∧
      (runJobs fiveBatch oneBadClient (fun _ => Except.ok Json.null)
        (fun _ _ => Except.ok ()) "quiz").countP (fun r => r.1.error.isNone) = 4 ∧
      ((runJobs fiveBatch oneBadClient (fun _ => Except.ok Json.null)
        (fun _ _ => Except.ok ()) "quiz").filterMap (fun r => r.2)).length = 4) := by
  refine ⟨by simp [runJobs], ?_, ?_, ?_, by decide, by decide, by decide⟩
  · rw [runJobs, List.map_map]
    exact List.map_congr_left
      (fun p _ => processTranscript_name p.1 p.2 dir client parse write)
  · rw [runJobs, List.countP_map]
    rfl
  · rw [runJobs, List.countP_map, List.countP_map]
    congr 1
    funext p
    exact processTranscript_written p.1 p.2 dir client parse write

/-- C5 counterexample: a subdirectory whose name ends in the transcript
extension is not ignored: the loader opens it as a file and the run dies with
an error instead of proceeding with an empty transcript list. -/
theorem claim_C5_counterexample :
    loadTranscripts "texts" [DirEntry.dir "sub.txt"]
      = Except.error "IsADirectoryError: texts/sub.txt" := rfl

/-- C5 corrected: the loader yields exactly one Transcript per immediate
directory entry that is a regular file with a case-insensitive txt suffix, in
listing order, and ignores every other file and every subdirectory whose name
lacks the suffix; but a subdirectory whose name carries the suffix is opened
like a file and aborts the load with an error. -/
theorem claim_C5 :
    (∀ folder entries, (∀ e ∈ entries, isTxtDir e = false) →
      loadTranscripts folder entries = Except.ok (txtPairs entries)) ∧
    (∀ folder (pre rest : List DirEntry) n, (∀ e ∈ pre, isTxtDir e = false) →
      endsTxt (pyLower n) = true →
      loadTranscripts folder (pre ++ DirEntry.dir n :: rest)
        = Except.error ("IsADirectoryError: " ++ pyJoin folder n)) := by
  constructor
  · intro folder entries h
    induction entries with
    | nil => rfl
    | cons e rest ih =>
      have hrest := ih (fun x hx => h x (List.mem_cons_of_mem e hx))
      cases e with
      | file n c =>
        by_cases hn : endsTxt (pyLower n)
        · have ht : txtPairs (DirEntry.file n c :: rest) = (n, c) :: txtPairs rest := by
            simp [txtPairs, List.filterMap_cons, hn]
          rw [ht]
          simp [loadTranscripts, hn, hrest]
        · have ht : txtPairs (DirEntry.file n c :: rest) = txtPairs rest := by
            simp [txtPairs, List.filterMap_cons, hn]
          rw [ht]
          simp [loadTranscripts, hn, hrest]
      | dir n =>
        have hn : endsTxt (pyLower n) = false := by
          have h0 := h (DirEntry.dir n) (List.mem_cons_self _ _)
          simpa [isTxtDir] using h0
        have ht : txtPairs (DirEntry.dir n :: rest) = txtPairs rest := by
          simp [txtPairs, List.filterMap_cons]
        rw [ht]
        simp [loadTranscripts, hn, hrest]
  · intro folder pre rest n hpre hn
    induction pre with
    | nil => simp [loadTranscripts, hn]
    | cons e pre ih =>
      have hrec := ih (fun x hx => hpre x (List.mem_cons_of_mem e hx))
      cases e with
      | file m c =>
        by_cases hm : endsTxt (pyLower m)
        · simp [loadTranscripts, hm, hrec]
        · simp [loadTranscripts, hm]
          exact hrec
      | dir m =>
        have hm : endsTxt (pyLower m) = false := by
          have h0 := hpre (DirEntry.dir m) (List.mem_cons_self _ _)
          simpa [isTxtDir] using h0
        simp [loadTranscripts, hm]
        exact hrec

/-- C5 witness: a concrete mixed listing keeps exactly the txt files, and a
concrete listing with a txt-suffixed subdirectory aborts. -/
theorem claim_C5_witness :
    loadTranscripts "texts"
      [DirEntry.file "a.txt" "alpha", DirEntry.dir "notes",
        DirEntry.file "b.TXT" "beta", DirEntry.file "c.md" "gamma"]
      = Except.ok [("a.txt", "alpha"), ("b.TXT", "beta")] ∧
    loadTranscripts "texts" [DirEntry.file "a.txt" "alpha", DirEntry.dir "other.txt"]
      = Except.error ("IsADirectoryError: " ++ pyJoin "texts" "other.txt") := by
  constructor
  · have h := claim_C5.1 "texts"
      [DirEntry.file "a.txt" "alpha", DirEntry.dir "notes",
        DirEntry.file "b.TXT" "beta", DirEntry.file "c.md" "gamma"] (by decide)
    rw [h]
    rfl
  · exact claim_C5.2 "texts" [DirEntry.file "a.txt" "alpha"] [] "other.txt"
      (by decide) (by decide)

/-- C1 counterexample: the empty JSON object violates every clause of the
structural schema, yet the job accepts it, reports success and persists it. -/
theorem claim_C1_counterexample :
    schemaOk (Json.obj []) = false ∧
    (processTranscript "a.txt" "text" (fun _ _ => Except.ok "\x7b\x7d")
      (fun _ => Except.ok (Json.obj [])) (fun _ _ => Except.ok ()) "quiz").1.error = none ∧
    (processTranscript "a.txt" "text" (fun _ _ => Except.ok "\x7b\x7d")
      (fun _ => Except.ok (Json.obj [])) (fun _ _ => Except.ok ()) "quiz").2
      = some ("quiz/A.json", Json.obj []) :=
  ⟨rfl, rfl, rfl⟩

/-- C1 corrected: the job accepts exactly the responses whose fence-stripped
text parses as JSON; it performs no structural validation, so a parsed value
that violates the schema is not rejected as a SchemaError but written to disk
all the same. -/
theorem claim_C1 (fn tx raw dir : String) (obj : Json)
    (client : String → String → Except String String)
    (parse : String → Except String Json)
    (hc : client fn tx = Except.ok raw)
    (hp : parse (pyNormalize raw) = Except.ok obj)
    (_hbad : schemaOk obj = false) :
    (processTranscript fn tx client parse (fun _ _ => Except.ok ()) dir).1.error = none ∧
    (processTranscript fn tx client parse (fun _ _ => Except.ok ()) dir).2
      = some (pyJoin dir (transcriptId fn ++ ".json"), obj) := by
  rw [processTranscript_ok hc hp rfl]
  exact ⟨rfl, rfl⟩

/-- C1 witness: a schema-violating empty array is accepted and written. -/
theorem claim_C1_witness :
    (processTranscript "b.txt" "text" (fun _ _ => Except.ok "[]")
      (fun _ => Except.ok (Json.arr [])) (fun _ _ => Except.ok ()) "quiz").1.error = none ∧
    (processTranscript "b.txt" "text" (fun _ _ => Except.ok "[]")
      (fun _ => Except.ok (Json.arr [])) (fun _ _ => Except.ok ()) "quiz").2
      = some (pyJoin "quiz" (transcriptId "b.txt" ++ ".json"), Json.arr []) :=
  claim_C1 "b.txt" "text" "[]" "quiz" (Json.arr [])
    (fun _ _ => Except.ok "[]") (fun _ => Except.ok (Json.arr [])) rfl rfl rfl

end QuizGen
